import Mathlib

/-!
Verification development for the FuzzySum subset-sum engine
(`src/SubsetSum/fuzzy_sum.py` and `src/SubsetSum/parallel_solver.py`).

The Python code is shallowly embedded: real numbers become `ℚ`
(Python floats are idealized as exact rationals), Python `int` becomes
`ℤ`, list indices become `ℕ`, fallible lookups use `List.getD` (the
embedded solvers are proved to stay in range where it matters), and the
`int(round(...))` scaling step is modelled by `pyRound`, which performs
Python 3's round-half-to-even.  The OR-Tools integer-programming
strategy is an external collaborator; the embedding models the module
with `HAS_ORTOOLS = False` (the import-failure branch of the source),
so the dispatcher's fallback path applies and the hybrid strategy tries
only the dynamic-programming and greedy sub-strategies.
-/

/- Rational arithmetic is `@[irreducible]` upstream; restore reducibility so
that concrete runs of the embedded solvers can be checked by `decide`. -/
attribute [local semireducible] Rat.mul Rat.add Rat.sub Rat.inv

namespace FuzzySum

/-- `SolveMode` enum from fuzzy_sum.py. -/
inductive SolveMode
  | closest
  | le
  | ge
  | exact
  | range
deriving DecidableEq, Repr

/-- `SolverStrategy` enum from fuzzy_sum.py. -/
inductive SolverStrategy
  | ortools
  | dynamic
  | greedy
  | hybrid
deriving DecidableEq, Repr

/-- `SolverConstraints` dataclass.  Index sets become `Finset ℤ`
(Python `Set[int]`). -/
structure SolverConstraints where
  min_items : Option ℤ := none
  max_items : Option ℤ := none
  min_value : Option ℚ := none
  max_value : Option ℚ := none
  required_indices : Option (Finset ℤ) := none
  forbidden_indices : Option (Finset ℤ) := none
  tolerance : Option ℚ := none
deriving DecidableEq

/-- `SolverResult` dataclass. -/
structure SolverResult where
  success : Bool
  selected_indices : List ℕ
  selected_values : List ℚ
  total_sum : ℚ
  target : ℚ
  error : ℚ
  solve_time : ℚ
  strategy_used : SolverStrategy
  mode_used : SolveMode
  solver_status : String
  iterations : ℕ := 0
  message : String := ""
deriving DecidableEq

/-- Python 3 `round` to an integer: round half to even (banker's
rounding), as used by `int(round(v * scale_factor))`. -/
def pyRound (q : ℚ) : ℤ :=
  let f := ⌊q⌋
  let r := q - (f : ℚ)
  if r < 1 / 2 then f
  else if r > 1 / 2 then f + 1
  else if f % 2 = 0 then f else f + 1

/-- Truthiness-gated test from `_solve_dynamic`:
`constraints.max_items and new_items > constraints.max_items`
(a `max_items` of `None` or `0` is falsy and disables the check). -/
def dynMaxBlocks (co : Option SolverConstraints) (newItems : ℤ) : Bool :=
  match co with
  | none => false
  | some c =>
    match c.max_items with
    | none => false
    | some m => m != 0 && decide (newItems > m)

/-- Best-state filter from `_solve_dynamic`:
`constraints.min_items and items < constraints.min_items`. -/
def selMinSkip (co : Option SolverConstraints) (items : ℤ) : Bool :=
  match co with
  | none => false
  | some c =>
    match c.min_items with
    | none => false
    | some m => m != 0 && decide (items < m)

/-- Best-state filter from `_solve_dynamic`:
`constraints.max_items and items > constraints.max_items`. -/
def selMaxSkip (co : Option SolverConstraints) (items : ℤ) : Bool :=
  match co with
  | none => false
  | some c =>
    match c.max_items with
    | none => false
    | some m => m != 0 && decide (items > m)

/-- Loop guard from `_solve_greedy`:
`constraints.max_items and len(selected_indices) >= constraints.max_items`. -/
def greedyMaxBreak (co : Option SolverConstraints) (count : ℕ) : Bool :=
  match co with
  | none => false
  | some c =>
    match c.max_items with
    | none => false
    | some m => m != 0 && decide ((count : ℤ) ≥ m)

/-- Loop guard from `_solve_greedy`:
`constraints.forbidden_indices and original_idx in constraints.forbidden_indices`
(an empty set is falsy). -/
def greedyForbidden (co : Option SolverConstraints) (i : ℕ) : Bool :=
  match co with
  | none => false
  | some c =>
    match c.forbidden_indices with
    | none => false
    | some s => !decide (s = ∅) && decide ((i : ℤ) ∈ s)

/-- Post-check from `_solve_greedy`:
`constraints.min_items` truthy and `len(selected_indices) < min_items`. -/
def greedyMinFail (co : Option SolverConstraints) (count : ℕ) : Bool :=
  match co with
  | none => false
  | some c =>
    match c.min_items with
    | none => false
    | some m => m != 0 && decide ((count : ℤ) < m)

/-- Per-value acceptance test of `_filter_values` (value-range bounds and
forbidden indices; `ℚ` has no NaN/inf, so the non-finite skip is vacuous). -/
def filterKeeps (co : Option SolverConstraints) (v : ℚ) (i : ℕ) : Bool :=
  match co with
  | none => true
  | some c =>
    !(match c.min_value with
      | some mv => decide (v < mv)
      | none => false) &&
    !(match c.max_value with
      | some mv => decide (v > mv)
      | none => false) &&
    !(match c.forbidden_indices with
      | some s => !decide (s = ∅) && decide ((i : ℤ) ∈ s)
      | none => false)

/-- `_filter_values`, walking the value list from absolute index `i0` and
returning the kept values together with their original indices. -/
def filterValues (co : Option SolverConstraints) : List ℚ → ℕ → List ℚ × List ℕ
  | [], _ => ([], [])
  | v :: rest, i0 =>
    if filterKeeps co v i0 then
      (v :: (filterValues co rest (i0 + 1)).1,
        i0 :: (filterValues co rest (i0 + 1)).2)
    else filterValues co rest (i0 + 1)

/-- `[(v, i) for i, v in enumerate(values)]` from `_solve_greedy`. -/
def indexPairs (l : List ℚ) : List (ℚ × ℕ) :=
  (List.range l.length).map (fun i => (l.getD i 0, i))

/-- Total order realizing Python's stable `sort(reverse=True)` on
`(value, index)` pairs: descending lexicographically. -/
def leDescRel (a b : ℚ × ℕ) : Prop :=
  b.1 < a.1 ∨ (a.1 = b.1 ∧ b.2 ≤ a.2)

/-- Total order realizing Python's stable sort by the key
`abs(value - anchor)`: ascending by key, ties kept in index order. -/
def proxRel (anchor : ℚ) (a b : ℚ × ℕ) : Prop :=
  |a.1 - anchor| < |b.1 - anchor| ∨
    (|a.1 - anchor| = |b.1 - anchor| ∧ a.2 ≤ b.2)

instance : DecidableRel leDescRel := fun a b => by
  unfold leDescRel; infer_instance

instance (anchor : ℚ) : DecidableRel (proxRel anchor) := fun a b => by
  unfold proxRel; infer_instance

/-- The mode-dependent ordering step of `_solve_greedy` (lines 458-467):
descending for LE, otherwise by proximity to `target / max(1, n // 4)`.
Python's stable sorts are realized as insertion sort by the corresponding
index-tie-breaking total orders, whose sorted permutation is unique. -/
def greedyOrder (mode : SolveMode) (target : ℚ) (n : ℕ)
    (l : List (ℚ × ℕ)) : List (ℚ × ℕ) :=
  if mode = SolveMode.le then
    List.insertionSort leDescRel l
  else
    let anchor := target / ((max 1 (n / 4) : ℕ) : ℚ)
    List.insertionSort (proxRel anchor) l

/-- The selection loop of `_solve_greedy` (lines 469-502), with the
constraint checks threaded as the guard functions `maxBreak`/`forbid`.
Returns the selected filtered-domain indices and the running sum.  The
end-of-iteration early exit `mode == EXACT and current_sum == target`
(line 501) is inlined into each acceptance branch, with the then-current
running sum. -/
def greedyLoop (target : ℚ) (mode : SolveMode)
    (maxBreak : ℕ → Bool) (forbid : ℕ → Bool) :
    List (ℚ × ℕ) → List ℕ → ℚ → List ℕ × ℚ
  | [], sel, cur => (sel, cur)
  | (v, i) :: rest, sel, cur =>
    if maxBreak sel.length then (sel, cur)
    else if forbid i then greedyLoop target mode maxBreak forbid rest sel cur
    else if mode = SolveMode.le ∧ cur + v > target then
      greedyLoop target mode maxBreak forbid rest sel cur
    else if mode = SolveMode.ge ∧ cur ≥ target then (sel, cur)
    else if mode = SolveMode.exact ∧ cur + v > target then
      greedyLoop target mode maxBreak forbid rest sel cur
    else if mode = SolveMode.closest then
      if |cur + v - target| < |cur - target| then
        if mode = SolveMode.exact ∧ cur + v = target then (sel ++ [i], cur + v)
        else greedyLoop target mode maxBreak forbid rest (sel ++ [i]) (cur + v)
      else
        if mode = SolveMode.exact ∧ cur = target then (sel, cur)
        else greedyLoop target mode maxBreak forbid rest sel cur
    else
      if mode = SolveMode.exact ∧ cur + v = target then (sel ++ [i], cur + v)
      else greedyLoop target mode maxBreak forbid rest (sel ++ [i]) (cur + v)

/-- `_solve_greedy` over an (already filtered) value list. -/
def solveGreedy (values : List ℚ) (target : ℚ) (mode : SolveMode)
    (co : Option SolverConstraints) : SolverResult :=
  let pairs := greedyOrder mode target values.length (indexPairs values)
  let run := greedyLoop target mode (greedyMaxBreak co) (greedyForbidden co)
    pairs [] 0
  if greedyMinFail co run.1.length then
    { success := false
      selected_indices := []
      selected_values := []
      total_sum := 0
      target := target
      error := |target|
      solve_time := 0
      strategy_used := SolverStrategy.greedy
      mode_used := mode
      solver_status := "CONSTRAINT_VIOLATION"
      message := "Cannot satisfy minimum items constraint" }
  else
    let selectedValues := run.1.map (fun i => values.getD i 0)
    let total := selectedValues.sum
    { success := true
      selected_indices := run.1
      selected_values := selectedValues
      total_sum := total
      target := target
      error := |target - total|
      solve_time := 0
      strategy_used := SolverStrategy.greedy
      mode_used := mode
      solver_status := "FEASIBLE" }

/-- Back-pointer table of `_solve_dynamic`: maps a state
`(items_taken, scaled_sum)` to `(previous_items, previous_sum, item_index)`. -/
abbrev DpParent := List ((ℤ × ℤ) × (ℤ × ℤ × ℕ))

/-- Inner loop of `_solve_dynamic` (lines 364-380): for item `i`, walk a
snapshot of the current reachable-state dict (in insertion order) and extend
the accumulating `new_dp`/`parent`.  The dict values are always `True` in the
source, so states are represented as a duplicate-free insertion-ordered list.
The `items == i` guard is transcribed as in the source (line 365). -/
def dpInner (sv : List ℤ) (T maxSum : ℤ) (maxBlock : ℤ → Bool) (i : ℕ) :
    List (ℤ × ℤ) → List (ℤ × ℤ) × DpParent → List (ℤ × ℤ) × DpParent
  | [], acc => acc
  | (items, s) :: rest, (ndp, par) =>
    if items = (i : ℤ) then
      if maxBlock (items + 1) = false ∧ |s + sv.getD i 0 - T| ≤ maxSum then
        if (items + 1, s + sv.getD i 0) ∈ ndp then
          dpInner sv T maxSum maxBlock i rest (ndp, par)
        else
          dpInner sv T maxSum maxBlock i rest
            (ndp ++ [(items + 1, s + sv.getD i 0)],
              par ++ [((items + 1, s + sv.getD i 0), (items, s, i))])
      else dpInner sv T maxSum maxBlock i rest (ndp, par)
    else dpInner sv T maxSum maxBlock i rest (ndp, par)

/-- Outer loop of `_solve_dynamic` (lines 360-381): `dp` is seeded with
`(0, 0)` and each item is processed in original order; `new_dp` starts as a
copy of `dp`, which the inner loop then extends. -/
def dpLoop (sv : List ℤ) (T maxSum : ℤ) (maxBlock : ℤ → Bool) (n : ℕ) :
    List (ℤ × ℤ) × DpParent :=
  (List.range n).foldl (fun st i => dpInner sv T maxSum maxBlock i st.1 st)
    ([(0, 0)], [])

/-- The comparison `error < best_error` of `_solve_dynamic` line 406:
`best_error` starts as `float('inf')`, modelled by the accumulator being
`none`. -/
def bestErrLt (e : ℤ) (best : Option ((ℤ × ℤ) × ℤ)) : Bool :=
  match best with
  | none => true
  | some (_, be) => decide (e < be)

/-- Best-state selection of `_solve_dynamic` (lines 383-408): walk the
reachable states in insertion order, skip those failing the count
constraints or the mode feasibility test, and keep the first state with
strictly smallest `|scaled_sum - scaled_target|`.  The accumulator pairs
`best_key` with `best_error`. -/
def findBestAux (T : ℤ) (minSkip maxSkip : ℤ → Bool) (mode : SolveMode) :
    List (ℤ × ℤ) → Option ((ℤ × ℤ) × ℤ) → Option ((ℤ × ℤ) × ℤ)
  | [], best => best
  | (items, s) :: rest, best =>
    if minSkip items = true ∨ maxSkip items = true then
      findBestAux T minSkip maxSkip mode rest best
    else if (mode = SolveMode.le ∧ s > T) ∨ (mode = SolveMode.ge ∧ s < T) ∨
        (mode = SolveMode.exact ∧ s ≠ T) then
      findBestAux T minSkip maxSkip mode rest best
    else if bestErrLt |s - T| best then
      findBestAux T minSkip maxSkip mode rest (some ((items, s), |s - T|))
    else findBestAux T minSkip maxSkip mode rest best

/-- First-match lookup in the back-pointer table (`parent[current]`). -/
def pLookup (par : DpParent) (k : ℤ × ℤ) : Option (ℤ × ℤ × ℕ) :=
  (par.find? (fun e => decide (e.1 = k))).map (fun e => e.2)

/-- Solution reconstruction of `_solve_dynamic` (lines 426-433): follow
back-pointers while a parent exists, collecting item indices, then reverse.
Fuel bounds the walk; the caller passes `par.length + 1`, which covers every
terminating walk of the Python loop since each step consumes a distinct
parent entry. -/
def reconstruct (par : DpParent) : ℕ → ℤ × ℤ → List ℕ
  | 0, _ => []
  | fuel + 1, cur =>
    match pLookup par cur with
    | none => []
    | some (pit, ps, idx) => reconstruct par fuel (pit, ps) ++ [idx]

/-- `_solve_dynamic` over an (already filtered) value list. -/
def solveDynamic (sf : ℤ) (values : List ℚ) (target : ℚ) (mode : SolveMode)
    (co : Option SolverConstraints) : SolverResult :=
  let sv := values.map (fun v => pyRound (v * (sf : ℚ)))
  let T := pyRound (target * (sf : ℚ))
  let maxSum := (sv.map (fun v => |v|)).sum
  let run := dpLoop sv T maxSum (dynMaxBlocks co) values.length
  match findBestAux T (selMinSkip co) (selMaxSkip co) mode run.1 none with
  | none =>
    { success := false
      selected_indices := []
      selected_values := []
      total_sum := 0
      target := target
      error := |target|
      solve_time := 0
      strategy_used := SolverStrategy.dynamic
      mode_used := mode
      solver_status := "NO_SOLUTION"
      message := "No valid solution found with dynamic programming" }
  | some (bk, _) =>
    let sel := reconstruct run.2 (run.2.length + 1) bk
    let selectedValues := sel.map (fun i => values.getD i 0)
    let total := selectedValues.sum
    { success := true
      selected_indices := sel
      selected_values := selectedValues
      total_sum := total
      target := target
      error := |target - total|
      solve_time := 0
      strategy_used := SolverStrategy.dynamic
      mode_used := mode
      solver_status := "OPTIMAL" }

/-- Strategy dispatch inside `_solve_hybrid`'s loop (lines 559-564).  With
`HAS_ORTOOLS = False` the strategy list never contains `ortools`, so the
`else` branch (greedy) covers everything but `dynamic`. -/
def runSub (sf : ℤ) (values : List ℚ) (target : ℚ) (mode : SolveMode)
    (co : Option SolverConstraints) : SolverStrategy → SolverResult
  | SolverStrategy.dynamic => solveDynamic sf values target mode co
  | _ => solveGreedy values target mode co

/-- Strategy list of `_solve_hybrid` (lines 545-554) under
`HAS_ORTOOLS = False`: dynamic programming for at most 500 values, greedy
always. -/
def hybridStrategies (n : ℕ) : List SolverStrategy :=
  (if n ≤ 500 then [SolverStrategy.dynamic] else []) ++ [SolverStrategy.greedy]

/-- The epsilon of `_solve_hybrid`'s early exit (`result.error < 1e-10`). -/
def hybridEps : ℚ := 1 / 10 ^ 10

/-- Best-result update of `_solve_hybrid` (lines 566-569): a successful
sub-result replaces the incumbent when it has strictly smaller error (or
there is no incumbent), and the winner's `strategy_used` is rewritten to
`Hybrid`. -/
def hybridUpdate (r : SolverResult) (best : Option SolverResult) :
    Option SolverResult :=
  match best with
  | none => some { r with strategy_used := SolverStrategy.hybrid }
  | some b =>
    if r.error < b.error then
      some { r with strategy_used := SolverStrategy.hybrid }
    else some b

/-- Main loop of `_solve_hybrid` (lines 556-573): keep the successful result
with smallest error; a successful result with error below `hybridEps` stops
the loop (lines 571-573; the `break` sits inside the success branch). -/
def hybridLoop (sf : ℤ) (values : List ℚ) (target : ℚ) (mode : SolveMode)
    (co : Option SolverConstraints) :
    List SolverStrategy → Option SolverResult → Option SolverResult
  | [], best => best
  | s :: rest, best =>
    if (runSub sf values target mode co s).success then
      if (runSub sf values target mode co s).error < hybridEps then
        hybridUpdate (runSub sf values target mode co s) best
      else
        hybridLoop sf values target mode co rest
          (hybridUpdate (runSub sf values target mode co s) best)
    else hybridLoop sf values target mode co rest best

/-- `_solve_hybrid` over an (already filtered) value list. -/
def solveHybrid (sf : ℤ) (values : List ℚ) (target : ℚ) (mode : SolveMode)
    (co : Option SolverConstraints) : SolverResult :=
  match hybridLoop sf values target mode co (hybridStrategies values.length)
    none with
  | some b => b
  | none =>
    { success := false
      selected_indices := []
      selected_values := []
      total_sum := 0
      target := target
      error := |target|
      solve_time := 0
      strategy_used := SolverStrategy.hybrid
      mode_used := mode
      solver_status := "ALL_STRATEGIES_FAILED"
      message := "All strategies failed to find a solution" }

/-- The index remap of `SubsetSumSolver.solve` (lines 204-209): on success,
the strategy's filtered-domain indices are mapped through the
filtered-to-original index table, and the values are re-read from the
original domain. -/
def remapResult (values : List ℚ) (co : Option SolverConstraints)
    (r : SolverResult) : SolverResult :=
  if r.success then
    { r with
      selected_indices :=
        r.selected_indices.map
          (fun i => (filterValues co values 0).2.getD i 0)
      selected_values :=
        (r.selected_indices.map
          (fun i => (filterValues co values 0).2.getD i 0)).map
          (fun j => values.getD j 0) }
  else r

/-- `SubsetSumSolver.solve` (lines 132-212): empty-input check, value
filtering, strategy dispatch (with `HAS_ORTOOLS = False` the `ortools`
request falls through to the dynamic-programming fallback, line 202), and
the final remap of filtered-domain indices to original-domain indices and
values.  `solve_time` is modelled as `0`. -/
def solve (sf : ℤ) (values : List ℚ) (target : ℚ) (mode : SolveMode)
    (strategy : SolverStrategy) (co : Option SolverConstraints) :
    SolverResult :=
  if values = [] then
    { success := false
      selected_indices := []
      selected_values := []
      total_sum := 0
      target := target
      error := |target|
      solve_time := 0
      strategy_used := strategy
      mode_used := mode
      solver_status := "EMPTY_INPUT"
      message := "No values provided" }
  else if (filterValues co values 0).1 = [] then
    { success := false
      selected_indices := []
      selected_values := []
      total_sum := 0
      target := target
      error := |target|
      solve_time := 0
      strategy_used := strategy
      mode_used := mode
      solver_status := "NO_VALID_VALUES"
      message := "No valid values after filtering" }
  else
    remapResult values co
      (match strategy with
       | SolverStrategy.dynamic =>
         solveDynamic sf (filterValues co values 0).1 target mode co
       | SolverStrategy.greedy =>
         solveGreedy (filterValues co values 0).1 target mode co
       | SolverStrategy.hybrid =>
         solveHybrid sf (filterValues co values 0).1 target mode co
       | SolverStrategy.ortools =>
         solveDynamic sf (filterValues co values 0).1 target mode co)

/-- Reachable-state list of the embedded `_solve_dynamic`, exposed for the
reachability analysis. -/
def dpStates (sf : ℤ) (values : List ℚ) (target : ℚ)
    (co : Option SolverConstraints) : List (ℤ × ℤ) :=
  let sv := values.map (fun v => pyRound (v * (sf : ℚ)))
  let T := pyRound (target * (sf : ℚ))
  let maxSum := (sv.map (fun v => |v|)).sum
  (dpLoop sv T maxSum (dynMaxBlocks co) values.length).1

/-- Modelled from the spec (section 4.3): one item step of the
dynamic-programming state relation as the specification words it — "every
existing reachable state may transition to
`(items_taken+1, scaled_sum+scaled_value)`", subject to the `max_items`
drop rule and the `|new_sum - scaled_target| <= sum(|scaled_values|)`
bound.  Unlike the source, there is no `items == i` restriction. -/
def specDpStep (sv : List ℤ) (T maxSum : ℤ) (maxBlock : ℤ → Bool) (i : ℕ)
    (dp : List (ℤ × ℤ)) : List (ℤ × ℤ) :=
  dp.foldl
    (fun ndp st =>
      let nitems := st.1 + 1
      let nsum := st.2 + sv.getD i 0
      if maxBlock nitems = false ∧ |nsum - T| ≤ maxSum ∧
          (nitems, nsum) ∉ ndp then
        ndp ++ [(nitems, nsum)]
      else ndp)
    dp

/-- Modelled from the spec (section 4.3): the reachable-state set obtained
by applying `specDpStep` for each filtered item in original order, seeded
with `(0, 0)`. -/
def specDpStates (sf : ℤ) (values : List ℚ) (target : ℚ)
    (co : Option SolverConstraints) : List (ℤ × ℤ) :=
  let sv := values.map (fun v => pyRound (v * (sf : ℚ)))
  let T := pyRound (target * (sf : ℚ))
  let maxSum := (sv.map (fun v => |v|)).sum
  (List.range values.length).foldl
    (fun dp i => specDpStep sv T maxSum (dynMaxBlocks co) i dp) [(0, 0)]

/-- Canonical form of an optional index set in `ResultCache._generate_key`:
`tuple(sorted(s)) if s else None` (an empty set is falsy and becomes
`None`). -/
def canonIdxSet (o : Option (Finset ℤ)) : Option (List ℤ) :=
  match o with
  | none => none
  | some s => if s = ∅ then none else some (s.sort (· ≤ ·))

/-- The `key_data['constraints']` dict of `ResultCache._generate_key`
(lines 106-115). -/
structure ConstraintsKey where
  min_items : Option ℤ
  max_items : Option ℤ
  min_value : Option ℚ
  max_value : Option ℚ
  required_indices : Option (List ℤ)
  forbidden_indices : Option (List ℤ)
  tolerance : Option ℚ
deriving DecidableEq

/-- Canonicalization of a `SolverConstraints` for the cache key. -/
def constraintsKey (c : SolverConstraints) : ConstraintsKey :=
  { min_items := c.min_items
    max_items := c.max_items
    min_value := c.min_value
    max_value := c.max_value
    required_indices := canonIdxSet c.required_indices
    forbidden_indices := canonIdxSet c.forbidden_indices
    tolerance := c.tolerance }

/-- The canonical key structure of `ResultCache._generate_key`
(lines 85-119).  The source hashes this structure (md5 of the sorted value
list, then sha256 of the pickled dict); the embedding keeps the structure
itself, which is the idealization of the hash "up to hash collision". -/
structure CacheKey where
  values_fingerprint : List ℚ
  target : ℚ
  mode : SolveMode
  strategy : SolverStrategy
  scale_factor : ℤ
  time_limit : ℚ
  constraints : Option ConstraintsKey
deriving DecidableEq

/-- `ResultCache._generate_key`. -/
def generateKey (values : List ℚ) (target : ℚ) (mode : SolveMode)
    (strategy : SolverStrategy) (co : Option SolverConstraints)
    (sf : ℤ) (timeLimit : ℚ) : CacheKey :=
  { values_fingerprint := values.insertionSort (· ≤ ·)
    target := target
    mode := mode
    strategy := strategy
    scale_factor := sf
    time_limit := timeLimit
    constraints := co.map constraintsKey }

/-- `BatchTask` dataclass from parallel_solver.py. -/
structure BatchTask where
  task_id : ℤ
  values : List ℚ
  target : ℚ
  mode : SolveMode
  strategy : SolverStrategy
  constraints : Option SolverConstraints := none
  scale_factor : ℤ := 100
  time_limit : ℚ := 5
deriving DecidableEq

/-- `BatchResult` dataclass from parallel_solver.py. -/
structure BatchResult where
  task_id : ℤ
  target : ℚ
  result : SolverResult
  cache_hit : Bool := false
deriving DecidableEq

/-- The failed `SolverResult` synthesized when a task's execution raises
(`_solve_with_threads` lines 301-313 / `_solve_with_processes`
lines 355-367). -/
def taskFailedResult (t : BatchTask) (msg : String) : SolverResult :=
  { success := false
    selected_indices := []
    selected_values := []
    total_sum := 0
    target := t.target
    error := |t.target|
    solve_time := 0
    strategy_used := t.strategy
    mode_used := t.mode
    solver_status := "TASK_FAILED"
    message := msg }

/-- The `BatchResult` folded into the batch for a failed task. -/
def taskFailedBatchResult (t : BatchTask) (msg : String) : BatchResult :=
  { task_id := t.task_id
    target := t.target
    result := taskFailedResult t msg
    cache_hit := false }

/-- One `future` collection step of the batch loops: `future.result()`
either returns the task's `BatchResult` or raises, in which case the
exception text is converted to a `TASK_FAILED` result.  The execution
outcome (including any exception, and any caching effect on the produced
result) is abstracted as the `exec` function. -/
def collectOne (exec : BatchTask → Except String BatchResult)
    (t : BatchTask) : BatchResult :=
  match exec t with
  | Except.ok r => r
  | Except.error e => taskFailedBatchResult t e

/-- Ordering used by `results.sort(key=lambda x: x.task_id)`. -/
def batchLe (a b : BatchResult) : Prop := a.task_id ≤ b.task_id

instance : DecidableRel batchLe := fun a b => by
  unfold batchLe; infer_instance

instance : IsTotal BatchResult batchLe :=
  ⟨fun a b => Int.le_total a.task_id b.task_id⟩

instance : IsTrans BatchResult batchLe :=
  ⟨fun _ _ _ h1 h2 => le_trans h1 h2⟩

/-- `ParallelSolver._solve_with_threads` (lines 272-323): results are
collected in completion order (`completionOrder`, an arbitrary permutation
of the submitted tasks decided by the thread scheduler), each future's
outcome is converted by `collectOne`, and the list is finally sorted by
ascending `task_id`.  The overall batch timeout is `None` (its default), so
every submitted task is collected. -/
def solveWithThreads (exec : BatchTask → Except String BatchResult)
    (completionOrder : List BatchTask) : List BatchResult :=
  List.insertionSort batchLe (completionOrder.map (collectOne exec))

/-- `ParallelSolver._solve_with_processes` (lines 325-377): identical
collection and sorting shape; the worker function runs in a separate
process with no shared cache, which `exec` abstracts. -/
def solveWithProcesses (exec : BatchTask → Except String BatchResult)
    (completionOrder : List BatchTask) : List BatchResult :=
  List.insertionSort batchLe (completionOrder.map (collectOne exec))

/-- Concrete fixture task used to instantiate the batch theorems. -/
def batchTaskA : BatchTask :=
  { task_id := 1
    values := [1]
    target := 1
    mode := SolveMode.closest
    strategy := SolverStrategy.greedy }

/-- Second concrete fixture task used to instantiate the batch theorems. -/
def batchTaskB : BatchTask :=
  { task_id := 2
    values := [2]
    target := 2
    mode := SolveMode.closest
    strategy := SolverStrategy.greedy }

/-- Structural well-formedness of a strategy result over its (filtered)
value domain: failures carry empty selections; successes carry values read
off the domain at the selected in-range indices, with `total_sum` their
sum.  This is the per-strategy half of the Result invariant (spec section
3). -/
def ResultFields (fv : List ℚ) (r : SolverResult) : Prop :=
  (r.success = false → r.selected_indices = [] ∧ r.selected_values = []) ∧
  (r.success = true →
    r.selected_values = r.selected_indices.map (fun i => fv.getD i 0) ∧
    r.total_sum = r.selected_values.sum ∧
    ∀ i ∈ r.selected_indices, i < fv.length)

/-! ### Helper lemmas -/

theorem solveDynamic_guards_congr (sf : ℤ) (values : List ℚ) (target : ℚ)
    (mode : SolveMode) (co1 co2 : Option SolverConstraints)
    (h1 : dynMaxBlocks co1 = dynMaxBlocks co2)
    (h2 : selMinSkip co1 = selMinSkip co2)
    (h3 : selMaxSkip co1 = selMaxSkip co2) :
    solveDynamic sf values target mode co1 =
      solveDynamic sf values target mode co2 := by
  unfold solveDynamic
  rw [h1, h2, h3]

theorem solveGreedy_guards_congr (values : List ℚ) (target : ℚ)
    (mode : SolveMode) (co1 co2 : Option SolverConstraints)
    (h1 : greedyMaxBreak co1 = greedyMaxBreak co2)
    (h2 : greedyForbidden co1 = greedyForbidden co2)
    (h3 : greedyMinFail co1 = greedyMinFail co2) :
    solveGreedy values target mode co1 = solveGreedy values target mode co2 := by
  unfold solveGreedy
  rw [h1, h2, h3]

theorem selMinSkip_zero (c : SolverConstraints) :
    selMinSkip (some { c with min_items := some 0 }) =
      selMinSkip (some { c with min_items := none }) := by
  funext k
  simp [selMinSkip]

theorem greedyMinFail_zero (c : SolverConstraints) :
    greedyMinFail (some { c with min_items := some 0 }) =
      greedyMinFail (some { c with min_items := none }) := by
  funext k
  simp [greedyMinFail]

theorem dynMaxBlocks_zero (c : SolverConstraints) :
    dynMaxBlocks (some { c with max_items := some 0 }) =
      dynMaxBlocks (some { c with max_items := none }) := by
  funext k
  simp [dynMaxBlocks]

theorem selMaxSkip_zero (c : SolverConstraints) :
    selMaxSkip (some { c with max_items := some 0 }) =
      selMaxSkip (some { c with max_items := none }) := by
  funext k
  simp [selMaxSkip]

theorem greedyMaxBreak_zero (c : SolverConstraints) :
    greedyMaxBreak (some { c with max_items := some 0 }) =
      greedyMaxBreak (some { c with max_items := none }) := by
  funext k
  simp [greedyMaxBreak]

theorem greedyMinFail_eq_true_iff (co : Option SolverConstraints) (k : ℕ) :
    greedyMinFail co k = true ↔
      ∃ c m, co = some c ∧ c.min_items = some m ∧ m ≠ 0 ∧ (k : ℤ) < m := by
  cases co with
  | none => simp [greedyMinFail]
  | some c =>
    cases h : c.min_items with
    | none => simp [greedyMinFail, h]
    | some m =>
      simp only [greedyMinFail, h, Bool.and_eq_true, bne_iff_ne, ne_eq,
        decide_eq_true_eq]
      constructor
      · rintro ⟨hm, hk⟩
        exact ⟨c, m, rfl, h, hm, hk⟩
      · rintro ⟨c2, m2, hc2, hm2, hm, hk⟩
        obtain rfl : c2 = c := by
          injection hc2 with h2
          exact h2.symm
        rw [h] at hm2
        obtain rfl : m2 = m := by
          injection hm2 with h2
          exact h2.symm
        exact ⟨hm, hk⟩

theorem findBestAux_feasible (T : ℤ) (minSkip maxSkip : ℤ → Bool)
    (mode : SolveMode) :
    ∀ (l : List (ℤ × ℤ)) (acc : Option ((ℤ × ℤ) × ℤ)) (bk : ℤ × ℤ) (be : ℤ),
      (∀ p e, acc = some (p, e) →
        (mode = SolveMode.le → p.2 ≤ T) ∧ (mode = SolveMode.ge → T ≤ p.2) ∧
          (mode = SolveMode.exact → p.2 = T)) →
      findBestAux T minSkip maxSkip mode l acc = some (bk, be) →
      (mode = SolveMode.le → bk.2 ≤ T) ∧ (mode = SolveMode.ge → T ≤ bk.2) ∧
        (mode = SolveMode.exact → bk.2 = T) := by
  intro l
  induction l with
  | nil =>
    intro acc bk be hacc hrun
    exact hacc bk be hrun
  | cons hd rest ih =>
    intro acc bk be hacc hrun
    obtain ⟨items, s⟩ := hd
    rw [findBestAux] at hrun
    split at hrun
    · exact ih acc bk be hacc hrun
    split at hrun
    · exact ih acc bk be hacc hrun
    rename_i hskip hmode
    push_neg at hmode
    split at hrun
    · refine ih _ bk be ?_ hrun
      rintro p e hp
      simp only [Option.some.injEq, Prod.mk.injEq] at hp
      obtain ⟨hp1, hp2⟩ := hp
      rw [← hp1]
      exact hmode
    · exact ih acc bk be hacc hrun

theorem indexPairs_getD {fv : List ℚ} {p : ℚ × ℕ} (hp : p ∈ indexPairs fv) :
    fv.getD p.2 0 = p.1 := by
  unfold indexPairs at hp
  obtain ⟨i, hi, rfl⟩ := List.mem_map.1 hp
  rfl

theorem greedyOrder_mem {mode : SolveMode} {target : ℚ} {n : ℕ}
    {l : List (ℚ × ℕ)} {p : ℚ × ℕ} (hp : p ∈ greedyOrder mode target n l) :
    p ∈ l := by
  unfold greedyOrder at hp
  split at hp
  · exact (List.mem_insertionSort leDescRel).1 hp
  · exact (List.mem_insertionSort _).1 hp

theorem greedyLoop_le_bound (target : ℚ) (maxBreak forbid : ℕ → Bool)
    (fv : List ℚ) :
    ∀ (l : List (ℚ × ℕ)) (sel : List ℕ) (cur : ℚ),
      (∀ p ∈ l, fv.getD p.2 0 = p.1) →
      cur ≤ target →
      cur = (sel.map (fun i => fv.getD i 0)).sum →
      (greedyLoop target SolveMode.le maxBreak forbid l sel cur).2 ≤ target ∧
        (greedyLoop target SolveMode.le maxBreak forbid l sel cur).2 =
          ((greedyLoop target SolveMode.le maxBreak forbid l sel
              cur).1.map (fun i => fv.getD i 0)).sum
  | [], sel, cur, _, hle, hsum => ⟨hle, hsum⟩
  | (v, i) :: rest, sel, cur, hpairs, hle, hsum => by
    have htail : ∀ p ∈ rest, fv.getD p.2 0 = p.1 :=
      fun p hp => hpairs p (List.mem_cons_of_mem _ hp)
    rw [greedyLoop]
    by_cases h1 : maxBreak sel.length = true
    · rw [if_pos h1]
      exact ⟨hle, hsum⟩
    rw [if_neg h1]
    by_cases h2 : forbid i = true
    · rw [if_pos h2]
      exact greedyLoop_le_bound target maxBreak forbid fv rest sel cur htail
        hle hsum
    rw [if_neg h2]
    by_cases h3 : cur + v > target
    · rw [if_pos ⟨rfl, h3⟩]
      exact greedyLoop_le_bound target maxBreak forbid fv rest sel cur htail
        hle hsum
    rw [if_neg (fun h => h3 h.2)]
    rw [if_neg (fun h => SolveMode.noConfusion h.1)]
    rw [if_neg (fun h => SolveMode.noConfusion h.1)]
    rw [if_neg (fun h => SolveMode.noConfusion h)]
    rw [if_neg (fun h => SolveMode.noConfusion h.1)]
    have hvi : fv.getD i 0 = v := hpairs (v, i) (List.mem_cons_self _ _)
    exact greedyLoop_le_bound target maxBreak forbid fv rest (sel ++ [i])
      (cur + v) htail (le_of_not_lt h3)
      (by
        rw [List.map_append, List.sum_append, ← hsum, List.map_singleton,
          List.sum_singleton, hvi])

theorem solveGreedy_le_bound (values : List ℚ) (target : ℚ)
    (co : Option SolverConstraints) (htarget : 0 ≤ target)
    (hs : (solveGreedy values target SolveMode.le co).success = true) :
    (solveGreedy values target SolveMode.le co).total_sum ≤ target := by
  unfold solveGreedy at hs ⊢
  set run := greedyLoop target SolveMode.le (greedyMaxBreak co)
    (greedyForbidden co)
    (greedyOrder SolveMode.le target values.length (indexPairs values)) [] 0
    with hrun
  by_cases hmin : greedyMinFail co run.1.length = true
  · simp only [hmin, if_true] at hs
    exact absurd hs (by decide)
  · simp only [hmin, if_false, Bool.false_eq_true, ite_false]
    have hinv := greedyLoop_le_bound target (greedyMaxBreak co)
      (greedyForbidden co) values
      (greedyOrder SolveMode.le target values.length (indexPairs values)) [] 0
      (fun p hp => indexPairs_getD (greedyOrder_mem hp)) htarget (by simp)
    rw [← hrun] at hinv
    exact hinv.2 ▸ hinv.1

theorem hybridUpdate_shape (r : SolverResult) (best : Option SolverResult)
    (b : SolverResult) (h : hybridUpdate r best = some b) :
    b = { r with strategy_used := SolverStrategy.hybrid } ∨ best = some b := by
  cases best with
  | none =>
    left
    injection h with h2
    exact h2.symm
  | some b0 =>
    rw [hybridUpdate] at h
    split at h
    · left
      injection h with h2
      exact h2.symm
    · right
      exact h

theorem hybridUpdate_ne_none (r : SolverResult) (best : Option SolverResult) :
    hybridUpdate r best ≠ none := by
  cases best with
  | none => simp [hybridUpdate]
  | some b0 =>
    rw [hybridUpdate]
    split <;> simp

theorem hybridLoop_some_shape (sf : ℤ) (values : List ℚ) (target : ℚ)
    (mode : SolveMode) (co : Option SolverConstraints) :
    ∀ (ss : List SolverStrategy) (best : Option SolverResult)
      (b : SolverResult),
      hybridLoop sf values target mode co ss best = some b →
      best = some b ∨
        ∃ s ∈ ss, (runSub sf values target mode co s).success = true ∧
          b = { runSub sf values target mode co s with
                strategy_used := SolverStrategy.hybrid } := by
  intro ss
  induction ss with
  | nil =>
    intro best b h
    exact Or.inl h
  | cons s rest ih =>
    intro best b h
    rw [hybridLoop] at h
    split at h
    · rename_i hsucc
      split at h
      · rcases hybridUpdate_shape _ _ _ h with h2 | h2
        · exact Or.inr ⟨s, List.mem_cons_self _ _, hsucc, h2⟩
        · exact Or.inl h2
      · rcases ih _ b h with h2 | ⟨s2, hs2, hsucc2, hb2⟩
        · rcases hybridUpdate_shape _ _ _ h2 with h3 | h3
          · exact Or.inr ⟨s, List.mem_cons_self _ _, hsucc, h3⟩
          · exact Or.inl h3
        · exact Or.inr ⟨s2, List.mem_cons_of_mem _ hs2, hsucc2, hb2⟩
    · rcases ih best b h with h2 | ⟨s2, hs2, hsucc2, hb2⟩
      · exact Or.inl h2
      · exact Or.inr ⟨s2, List.mem_cons_of_mem _ hs2, hsucc2, hb2⟩

theorem hybridLoop_eq_none_iff (sf : ℤ) (values : List ℚ) (target : ℚ)
    (mode : SolveMode) (co : Option SolverConstraints) :
    ∀ (ss : List SolverStrategy) (best : Option SolverResult),
      hybridLoop sf values target mode co ss best = none ↔
        best = none ∧
          ∀ s ∈ ss, (runSub sf values target mode co s).success = false := by
  intro ss
  induction ss with
  | nil =>
    intro best
    simp [hybridLoop]
  | cons s rest ih =>
    intro best
    rw [hybridLoop]
    split
    · rename_i hsucc
      split
      · constructor
        · intro h
          exact absurd h (hybridUpdate_ne_none _ _)
        · rintro ⟨h1, h2⟩
          exact absurd hsucc (by simp [h2 s (List.mem_cons_self _ _)])
      · rw [ih]
        constructor
        · rintro ⟨h1, h2⟩
          exact absurd h1 (hybridUpdate_ne_none _ _)
        · rintro ⟨h1, h2⟩
          exact absurd hsucc (by simp [h2 s (List.mem_cons_self _ _)])
    · rename_i hsucc
      rw [ih]
      constructor
      · rintro ⟨h1, h2⟩
        refine ⟨h1, fun s2 hs2 => ?_⟩
        rcases List.mem_cons.1 hs2 with rfl | hs2r
        · exact Bool.eq_false_iff.mpr hsucc
        · exact h2 s2 hs2r
      · rintro ⟨h1, h2⟩
        exact ⟨h1, fun s2 hs2 => h2 s2 (List.mem_cons_of_mem _ hs2)⟩

theorem filterValues_length (co : Option SolverConstraints) :
    ∀ (l : List ℚ) (i0 : ℕ),
      (filterValues co l i0).1.length = (filterValues co l i0).2.length
  | [], _ => rfl
  | v :: rest, i0 => by
    rw [filterValues]
    split
    · simpa using filterValues_length co rest (i0 + 1)
    · exact filterValues_length co rest (i0 + 1)

theorem filterValues_spec (co : Option SolverConstraints) :
    ∀ (l : List ℚ) (i0 k : ℕ),
      k < (filterValues co l i0).1.length →
      i0 ≤ (filterValues co l i0).2.getD k 0 ∧
        (filterValues co l i0).2.getD k 0 - i0 < l.length ∧
        l.getD ((filterValues co l i0).2.getD k 0 - i0) 0 =
          (filterValues co l i0).1.getD k 0
  | [], i0, k, hk => absurd hk (by simp [filterValues])
  | v :: rest, i0, k, hk => by
    rw [filterValues] at hk ⊢
    split at hk
    · rename_i hkeep
      rw [if_pos hkeep]
      cases k with
      | zero =>
        refine ⟨by simp, by simp, ?_⟩
        simp
      | succ k2 =>
        have hk2 : k2 < (filterValues co rest (i0 + 1)).1.length := by
          simpa using hk
        obtain ⟨h1, h2, h3⟩ := filterValues_spec co rest (i0 + 1) k2 hk2
        have hj : (i0 + 1) ≤ (filterValues co rest (i0 + 1)).2.getD k2 0 := h1
        refine ⟨by simpa using le_trans (Nat.le_succ i0) (by simpa using hj),
          ?_, ?_⟩
        · simp only [List.getD_cons_succ, List.length_cons]
          omega
        · simp only [List.getD_cons_succ]
          have heq : (filterValues co rest (i0 + 1)).2.getD k2 0 - i0 =
              ((filterValues co rest (i0 + 1)).2.getD k2 0 - (i0 + 1)) + 1 :=
            by omega
          rw [heq, List.getD_cons_succ]
          exact h3
    · rename_i hkeep
      rw [if_neg hkeep]
      obtain ⟨h1, h2, h3⟩ := filterValues_spec co rest (i0 + 1) k hk
      refine ⟨le_trans (Nat.le_succ i0) h1, ?_, ?_⟩
      · simp only [List.length_cons]
        omega
      · have heq : (filterValues co rest (i0 + 1)).2.getD k 0 - i0 =
            ((filterValues co rest (i0 + 1)).2.getD k 0 - (i0 + 1)) + 1 :=
          by omega
        rw [heq, List.getD_cons_succ]
        exact h3

theorem filterValues_map (co : Option SolverConstraints) (values : List ℚ)
    (k : ℕ) (hk : k < (filterValues co values 0).1.length) :
    (filterValues co values 0).2.getD k 0 < values.length ∧
      values.getD ((filterValues co values 0).2.getD k 0) 0 =
        (filterValues co values 0).1.getD k 0 := by
  obtain ⟨h1, h2, h3⟩ := filterValues_spec co values 0 k hk
  rw [Nat.sub_zero] at h2 h3
  exact ⟨h2, h3⟩

theorem indexPairs_lt {fv : List ℚ} {p : ℚ × ℕ} (hp : p ∈ indexPairs fv) :
    p.2 < fv.length := by
  unfold indexPairs at hp
  obtain ⟨i, hi, rfl⟩ := List.mem_map.1 hp
  exact List.mem_range.1 hi

theorem greedyLoop_indices_lt (target : ℚ) (mode : SolveMode)
    (maxBreak forbid : ℕ → Bool) (n : ℕ) :
    ∀ (l : List (ℚ × ℕ)) (sel : List ℕ) (cur : ℚ),
      (∀ p ∈ l, p.2 < n) → (∀ j ∈ sel, j < n) →
      ∀ j ∈ (greedyLoop target mode maxBreak forbid l sel cur).1, j < n
  | [], _, _, _, hsel => hsel
  | (v, i) :: rest, sel, cur, hl, hsel => by
    have hi : i < n := hl (v, i) (List.mem_cons_self _ _)
    have htail : ∀ p ∈ rest, p.2 < n :=
      fun p hp => hl p (List.mem_cons_of_mem _ hp)
    have hsel2 : ∀ j ∈ sel ++ [i], j < n := by
      intro j hj
      rcases List.mem_append.1 hj with hj | hj
      · exact hsel j hj
      · rw [List.mem_singleton.1 hj]
        exact hi
    rw [greedyLoop]
    split
    · exact hsel
    split
    · exact greedyLoop_indices_lt target mode maxBreak forbid n rest sel cur
        htail hsel
    split
    · exact greedyLoop_indices_lt target mode maxBreak forbid n rest sel cur
        htail hsel
    split
    · exact hsel
    split
    · exact greedyLoop_indices_lt target mode maxBreak forbid n rest sel cur
        htail hsel
    split
    · split
      · split
        · exact hsel2
        · exact greedyLoop_indices_lt target mode maxBreak forbid n rest
            (sel ++ [i]) (cur + v) htail hsel2
      · split
        · exact hsel
        · exact greedyLoop_indices_lt target mode maxBreak forbid n rest sel
            cur htail hsel
    · split
      · exact hsel2
      · exact greedyLoop_indices_lt target mode maxBreak forbid n rest
          (sel ++ [i]) (cur + v) htail hsel2

theorem solveGreedy_resultFields (values : List ℚ) (target : ℚ)
    (mode : SolveMode) (co : Option SolverConstraints) :
    ResultFields values (solveGreedy values target mode co) := by
  by_cases h : greedyMinFail co
      (greedyLoop target mode (greedyMaxBreak co) (greedyForbidden co)
        (greedyOrder mode target values.length (indexPairs values)) []
        0).1.length = true
  · refine ⟨fun _ => ⟨by simp [solveGreedy, h], by simp [solveGreedy, h]⟩,
      fun hs => absurd hs ?_⟩
    simp [solveGreedy, h]
  · refine ⟨fun hs => absurd hs ?_, fun _ => ⟨?_, ?_, ?_⟩⟩
    · simp [solveGreedy, h]
    · simp [solveGreedy, h]
    · simp [solveGreedy, h]
    · intro j hj
      have hj2 : j ∈ (greedyLoop target mode (greedyMaxBreak co)
          (greedyForbidden co)
          (greedyOrder mode target values.length (indexPairs values)) []
          0).1 := by
        simpa [solveGreedy, h] using hj
      exact greedyLoop_indices_lt target mode (greedyMaxBreak co)
        (greedyForbidden co) values.length _ [] 0
        (fun p hp => indexPairs_lt (greedyOrder_mem hp)) (by simp) j hj2

theorem pLookup_mem {par : DpParent} {k : ℤ × ℤ} {v : ℤ × ℤ × ℕ}
    (h : pLookup par k = some v) : ∃ ent ∈ par, ent.2 = v := by
  unfold pLookup at h
  cases hf : par.find? (fun e => decide (e.1 = k)) with
  | none =>
    rw [hf] at h
    cases h
  | some ent =>
    rw [hf] at h
    injection h with h2
    exact ⟨ent, List.mem_of_find?_eq_some hf, h2⟩

theorem reconstruct_indices_lt (n : ℕ) (par : DpParent)
    (hpar : ∀ ent ∈ par, ent.2.2.2 < n) :
    ∀ (fuel : ℕ) (cur : ℤ × ℤ), ∀ j ∈ reconstruct par fuel cur, j < n
  | 0, cur => by simp [reconstruct]
  | fuel + 1, cur => by
    rw [reconstruct]
    cases hl : pLookup par cur with
    | none => simp
    | some trip =>
      obtain ⟨pit, ps, idx⟩ := trip
      intro j hj
      rcases List.mem_append.1 hj with hj | hj
      · exact reconstruct_indices_lt n par hpar fuel (pit, ps) j hj
      · rw [List.mem_singleton.1 hj]
        obtain ⟨ent, hent, hent2⟩ := pLookup_mem hl
        have : ent.2.2.2 = idx := by rw [hent2]
        rw [← this]
        exact hpar ent hent

theorem dpInner_parent_lt (sv : List ℤ) (T maxSum : ℤ) (maxBlock : ℤ → Bool)
    (i n : ℕ) (hin : i < n) :
    ∀ (l : List (ℤ × ℤ)) (ndp : List (ℤ × ℤ)) (par : DpParent),
      (∀ ent ∈ par, ent.2.2.2 < n) →
      ∀ ent ∈ (dpInner sv T maxSum maxBlock i l (ndp, par)).2, ent.2.2.2 < n
  | [], _, _, hpar => hpar
  | (items, s) :: rest, ndp, par, hpar => by
    rw [dpInner]
    split
    · split
      · split
        · exact dpInner_parent_lt sv T maxSum maxBlock i n hin rest ndp par
            hpar
        · refine dpInner_parent_lt sv T maxSum maxBlock i n hin rest _ _ ?_
          intro ent hent
          rcases List.mem_append.1 hent with h | h
          · exact hpar ent h
          · rw [List.mem_singleton.1 h]
            exact hin
      · exact dpInner_parent_lt sv T maxSum maxBlock i n hin rest ndp par hpar
    · exact dpInner_parent_lt sv T maxSum maxBlock i n hin rest ndp par hpar

theorem dpLoop_parent_lt (sv : List ℤ) (T maxSum : ℤ) (maxBlock : ℤ → Bool)
    (n : ℕ) :
    ∀ ent ∈ (dpLoop sv T maxSum maxBlock n).2, ent.2.2.2 < n := by
  have aux : ∀ (is : List ℕ), (∀ i ∈ is, i < n) →
      ∀ (st : List (ℤ × ℤ) × DpParent), (∀ ent ∈ st.2, ent.2.2.2 < n) →
      ∀ ent ∈ (is.foldl
        (fun st i => dpInner sv T maxSum maxBlock i st.1 st) st).2,
        ent.2.2.2 < n := by
    intro is
    induction is with
    | nil =>
      intro _ st hst
      exact hst
    | cons i rest ih =>
      intro his st hst
      rw [List.foldl_cons]
      refine ih (fun j hj => his j (List.mem_cons_of_mem _ hj)) _ ?_
      exact dpInner_parent_lt sv T maxSum maxBlock i n
        (his i (List.mem_cons_self _ _)) st.1 st.1 st.2 hst
  exact aux (List.range n) (fun i hi => List.mem_range.1 hi) ([(0, 0)], [])
    (by simp)

theorem solveDynamic_resultFields (sf : ℤ) (values : List ℚ) (target : ℚ)
    (mode : SolveMode) (co : Option SolverConstraints) :
    ResultFields values (solveDynamic sf values target mode co) := by
  simp only [solveDynamic]
  split
  · exact ⟨fun _ => ⟨rfl, rfl⟩, fun hs => absurd hs (by simp)⟩
  · refine ⟨fun hs => absurd hs (by simp), fun _ => ⟨rfl, rfl, ?_⟩⟩
    intro j hj
    exact reconstruct_indices_lt values.length _
      (dpLoop_parent_lt _ _ _ _ values.length) _ _ j hj

theorem runSub_resultFields (sf : ℤ) (values : List ℚ) (target : ℚ)
    (mode : SolveMode) (co : Option SolverConstraints) (s : SolverStrategy) :
    ResultFields values (runSub sf values target mode co s) := by
  cases s with
  | ortools => exact solveGreedy_resultFields values target mode co
  | dynamic => exact solveDynamic_resultFields sf values target mode co
  | greedy => exact solveGreedy_resultFields values target mode co
  | hybrid => exact solveGreedy_resultFields values target mode co

theorem solveHybrid_resultFields (sf : ℤ) (values : List ℚ) (target : ℚ)
    (mode : SolveMode) (co : Option SolverConstraints) :
    ResultFields values (solveHybrid sf values target mode co) := by
  cases hhl : hybridLoop sf values target mode co
      (hybridStrategies values.length) none with
  | none =>
    have hR : solveHybrid sf values target mode co =
        { success := false
          selected_indices := []
          selected_values := []
          total_sum := 0
          target := target
          error := |target|
          solve_time := 0
          strategy_used := SolverStrategy.hybrid
          mode_used := mode
          solver_status := "ALL_STRATEGIES_FAILED"
          message := "All strategies failed to find a solution" } := by
      unfold solveHybrid
      rw [hhl]
    rw [hR]
    exact ⟨fun _ => ⟨rfl, rfl⟩, fun hs => absurd hs (by simp)⟩
  | some b =>
    have hR : solveHybrid sf values target mode co = b := by
      unfold solveHybrid
      rw [hhl]
    rw [hR]
    rcases hybridLoop_some_shape sf values target mode co _ _ _ hhl with
      h0 | ⟨s, hs, hsucc, hb⟩
    · exact Option.noConfusion h0
    · have hsub := runSub_resultFields sf values target mode co s
      rw [hb]
      exact ⟨fun hf => hsub.1 hf, fun ht => hsub.2 ht⟩

theorem remapResult_resultFields (values : List ℚ)
    (co : Option SolverConstraints) (r : SolverResult)
    (hr : ResultFields (filterValues co values 0).1 r) :
    ((remapResult values co r).success = true →
      (remapResult values co r).selected_indices.length =
        (remapResult values co r).selected_values.length ∧
      (remapResult values co r).selected_values =
        (remapResult values co r).selected_indices.map
          (fun j => values.getD j 0) ∧
      (∀ j ∈ (remapResult values co r).selected_indices,
        j < values.length) ∧
      (remapResult values co r).selected_values.sum =
        (remapResult values co r).total_sum) ∧
    ((remapResult values co r).success = false →
      (remapResult values co r).selected_indices = [] ∧
      (remapResult values co r).selected_values = []) := by
  unfold remapResult
  by_cases hs : r.success = true
  · rw [if_pos hs]
    obtain ⟨hvals, hsum, hrange⟩ := hr.2 hs
    have hpoint : ∀ i ∈ r.selected_indices,
        values.getD ((filterValues co values 0).2.getD i 0) 0 =
          (filterValues co values 0).1.getD i 0 :=
      fun i hi => (filterValues_map co values i (hrange i hi)).2
    refine ⟨fun _ => ⟨by simp, rfl, ?_, ?_⟩, fun hf => absurd hf (by simp [hs])⟩
    · intro j hj
      obtain ⟨i, hi, rfl⟩ := List.mem_map.1 hj
      exact (filterValues_map co values i (hrange i hi)).1
    · show ((r.selected_indices.map
          (fun i => (filterValues co values 0).2.getD i 0)).map
          (fun j => values.getD j 0)).sum = r.total_sum
      rw [List.map_map]
      have hmaps : r.selected_indices.map
          ((fun j => values.getD j 0) ∘
            (fun i => (filterValues co values 0).2.getD i 0)) =
          r.selected_indices.map
            (fun i => (filterValues co values 0).1.getD i 0) :=
        List.map_congr_left (fun i hi => hpoint i hi)
      rw [hmaps, ← hvals, ← hsum]
  · rw [if_neg hs]
    have hfalse : r.success = false := Bool.eq_false_iff.mpr hs
    exact ⟨fun ht => absurd ht hs, fun _ => hr.1 hfalse⟩

/-! ### Claim theorems -/

/-- C1.  The dynamic-programming state exploration does NOT implement the
spec's transition rule.  The spec says every reachable state may transition
when an item is processed, so for values `[1, 2]` (scaled `[100, 200]`,
target `3` scaled to `300`) the subset consisting of the second item alone
gives the reachable state `(1, 200)`; both drop rules hold for it.  The
source's `items == i` guard (fuzzy_sum.py line 365) only lets the state
whose item count equals the current item's position transition, so the
code's reachable set contains only the prefix states `(k, v0+...+v(k-1))`
and misses `(1, 200)`.  Consequently an Exact-mode solve whose only witness
is a non-prefix subset (here `target = 2`, matched exactly by the second
item) is wrongly reported unsolvable. -/
theorem dp_prefix_only_bug :
    ((1 : ℤ), (200 : ℤ)) ∈ specDpStates 100 [1, 2] 3 none ∧
    ((1 : ℤ), (200 : ℤ)) ∉ dpStates 100 [1, 2] 3 none ∧
    dpStates 100 [1, 2] 3 none = [(0, 0), (1, 100), (2, 300)] ∧
    (solveDynamic 100 [1, 2] 2 SolveMode.exact none).success = false ∧
    (solveDynamic 100 [1, 2] 2 SolveMode.exact none).solver_status =
      "NO_SOLUTION" := by
  refine ⟨by decide, by decide, by decide, by decide, by decide⟩

/-- C2, counterexample.  Scenario C (`values=[10,20,30]`, `target=50`,
`min_items=5`) does not yield status `ConstraintViolation` for every
strategy: the dynamic-programming strategy returns status `NO_SOLUTION`
(its best-state filter simply finds no state with enough items, fuzzy_sum.py
lines 410-423). -/
theorem scenarioC_status_counterexample :
    (solve 100 [10, 20, 30] 50 SolveMode.closest SolverStrategy.dynamic
        (some { min_items := some 5 })).success = false ∧
    (solve 100 [10, 20, 30] 50 SolveMode.closest SolverStrategy.dynamic
        (some { min_items := some 5 })).solver_status = "NO_SOLUTION" ∧
    (solve 100 [10, 20, 30] 50 SolveMode.closest SolverStrategy.dynamic
        (some { min_items := some 5 })).solver_status ≠
      "CONSTRAINT_VIOLATION" := by
  refine ⟨by decide, by decide, by decide⟩

/-- C2, amended.  For scenario C every embedded strategy returns an
unsuccessful Result, but the status is strategy-specific:
`CONSTRAINT_VIOLATION` for greedy, `NO_SOLUTION` for dynamic programming,
and `ALL_STRATEGIES_FAILED` for hybrid. -/
theorem scenarioC_all_strategies_fail :
    (solve 100 [10, 20, 30] 50 SolveMode.closest SolverStrategy.greedy
        (some { min_items := some 5 })).success = false ∧
    (solve 100 [10, 20, 30] 50 SolveMode.closest SolverStrategy.greedy
        (some { min_items := some 5 })).solver_status =
      "CONSTRAINT_VIOLATION" ∧
    (solve 100 [10, 20, 30] 50 SolveMode.closest SolverStrategy.dynamic
        (some { min_items := some 5 })).success = false ∧
    (solve 100 [10, 20, 30] 50 SolveMode.closest SolverStrategy.dynamic
        (some { min_items := some 5 })).solver_status = "NO_SOLUTION" ∧
    (solve 100 [10, 20, 30] 50 SolveMode.closest SolverStrategy.hybrid
        (some { min_items := some 5 })).success = false ∧
    (solve 100 [10, 20, 30] 50 SolveMode.closest SolverStrategy.hybrid
        (some { min_items := some 5 })).solver_status =
      "ALL_STRATEGIES_FAILED" := by
  refine ⟨by decide, by decide, by decide, by decide, by decide, by decide⟩

/-- C3, counterexample.  Successful results can violate the mode bounds:
(1) greedy in GE mode with `values=[1]`, `target=100` succeeds with
`total_sum = 1 < 100` (the item list runs out before the target is met,
fuzzy_sum.py lines 483-502); (2) greedy in LE mode with `values=[1]`,
`target=-5` succeeds with `total_sum = 0 > -5` (the empty selection is
accepted); (3) dynamic in Exact mode with `values=[0.204]`,
`target=0.2`, scale factor 100 succeeds (both scale to 20) with
`total_sum = 0.204 ≠ 0.2`, so post-unscaling equality fails. -/
theorem mode_correctness_counterexample :
    ((solve 100 [1] 100 SolveMode.ge SolverStrategy.greedy none).success =
        true ∧
      (solve 100 [1] 100 SolveMode.ge SolverStrategy.greedy none).total_sum =
        1 ∧
      ¬(100 : ℚ) ≤
        (solve 100 [1] 100 SolveMode.ge SolverStrategy.greedy
            none).total_sum) ∧
    ((solve 100 [1] (-5) SolveMode.le SolverStrategy.greedy none).success =
        true ∧
      ¬(solve 100 [1] (-5) SolveMode.le SolverStrategy.greedy
            none).total_sum ≤ -5) ∧
    ((solve 100 [51 / 250] (1 / 5) SolveMode.exact SolverStrategy.dynamic
          none).success = true ∧
      (solve 100 [51 / 250] (1 / 5) SolveMode.exact SolverStrategy.dynamic
          none).total_sum ≠ 1 / 5) := by
  refine ⟨⟨by decide, by decide, by decide⟩, ⟨by decide, by decide⟩,
    ⟨by decide, by decide⟩⟩

/-- C3, amended.  Mode correctness restricted to what the code guarantees:
(1) the dynamic-programming best-state selection only ever picks a state
whose scaled sum satisfies the mode condition against the scaled target
(`<=` for LE, `>=` for GE, `=` for Exact); (2) the greedy strategy
guarantees the LE bound on the returned `total_sum`, provided the target is
nonnegative. -/
theorem mode_correctness_amended :
    (∀ (T : ℤ) (minSkip maxSkip : ℤ → Bool) (mode : SolveMode)
        (dp : List (ℤ × ℤ)) (bk : ℤ × ℤ) (be : ℤ),
      findBestAux T minSkip maxSkip mode dp none = some (bk, be) →
      (mode = SolveMode.le → bk.2 ≤ T) ∧ (mode = SolveMode.ge → T ≤ bk.2) ∧
        (mode = SolveMode.exact → bk.2 = T)) ∧
    (∀ (values : List ℚ) (target : ℚ) (co : Option SolverConstraints),
      0 ≤ target →
      (solveGreedy values target SolveMode.le co).success = true →
      (solveGreedy values target SolveMode.le co).total_sum ≤ target) :=
  ⟨fun T ms mx mode dp bk be h =>
    findBestAux_feasible T ms mx mode dp none bk be
      (fun _ _ hp => Option.noConfusion hp) h,
   solveGreedy_le_bound⟩

/-- Witness for `mode_correctness_amended`: the selection over the single
state list `[(0, 0)]` with target `0` in LE mode picks `(0, 0)`, and the
greedy LE solve of `values=[1]`, `target=1` succeeds with total at most the
target. -/
theorem mode_correctness_amended_witness :
    ((SolveMode.le = SolveMode.le → (((0 : ℤ), (0 : ℤ)) : ℤ × ℤ).2 ≤ 0) ∧
      (SolveMode.le = SolveMode.ge → (0 : ℤ) ≤ (((0 : ℤ), (0 : ℤ)) : ℤ × ℤ).2) ∧
      (SolveMode.le = SolveMode.exact → (((0 : ℤ), (0 : ℤ)) : ℤ × ℤ).2 = 0)) ∧
    (solveGreedy [1] 1 SolveMode.le none).total_sum ≤ 1 :=
  ⟨mode_correctness_amended.1 0 (selMinSkip none) (selMaxSkip none)
      SolveMode.le [(0, 0)] (0, 0) 0 (by decide),
   mode_correctness_amended.2 [1] 1 none (by decide) (by decide)⟩

/-- C4.  For every (filtered) value domain, mode, and constraint set, the
greedy solver returns a Result and never raises (it is a total function);
the Result is successful unless `min_items` is set (truthy) and the greedy
selection falls short of it, in which case the Result is unsuccessful with
status `CONSTRAINT_VIOLATION`. -/
theorem greedy_success_dichotomy (values : List ℚ) (target : ℚ)
    (mode : SolveMode) (co : Option SolverConstraints)
    (_hne : values ≠ []) :
    ((solveGreedy values target mode co).success = false ↔
      greedyMinFail co
        (greedyLoop target mode (greedyMaxBreak co) (greedyForbidden co)
          (greedyOrder mode target values.length (indexPairs values)) []
          0).1.length = true) ∧
    ((solveGreedy values target mode co).success = false →
      (solveGreedy values target mode co).solver_status =
        "CONSTRAINT_VIOLATION" ∧
      ∃ c m, co = some c ∧ c.min_items = some m ∧ m ≠ 0 ∧
        ((greedyLoop target mode (greedyMaxBreak co) (greedyForbidden co)
            (greedyOrder mode target values.length (indexPairs values)) []
            0).1.length : ℤ) < m) := by
  by_cases h : greedyMinFail co
      (greedyLoop target mode (greedyMaxBreak co) (greedyForbidden co)
        (greedyOrder mode target values.length (indexPairs values)) []
        0).1.length = true
  · refine ⟨by simp [solveGreedy, h], fun _ => ⟨by simp [solveGreedy, h], ?_⟩⟩
    exact (greedyMinFail_eq_true_iff co _).1 h
  · refine ⟨by simp [solveGreedy, h], fun hfalse => absurd hfalse ?_⟩
    simp [solveGreedy, h]

/-- Witness for `greedy_success_dichotomy` at `values=[1]`, `target=0`,
Closest mode, no constraints. -/
theorem greedy_success_dichotomy_witness :
    ((solveGreedy [1] 0 SolveMode.closest none).success = false ↔
      greedyMinFail none
        (greedyLoop 0 SolveMode.closest (greedyMaxBreak none)
          (greedyForbidden none)
          (greedyOrder SolveMode.closest 0 (List.length [1])
            (indexPairs [1])) [] 0).1.length = true) ∧
    ((solveGreedy [1] 0 SolveMode.closest none).success = false →
      (solveGreedy [1] 0 SolveMode.closest none).solver_status =
        "CONSTRAINT_VIOLATION" ∧
      ∃ c m, (none : Option SolverConstraints) = some c ∧
        c.min_items = some m ∧ m ≠ 0 ∧
        ((greedyLoop 0 SolveMode.closest (greedyMaxBreak none)
            (greedyForbidden none)
            (greedyOrder SolveMode.closest 0 (List.length [1])
              (indexPairs [1])) [] 0).1.length : ℤ) < m) :=
  greedy_success_dichotomy [1] 0 SolveMode.closest none (by decide)

/-- C8, counterexample.  Changing `required_indices` from `None` to the
empty set is a change to a constraint field, yet the cache key is unchanged:
`ResultCache._generate_key` canonicalizes with
`tuple(sorted(s)) if s else None` (parallel_solver.py line 112), and an
empty Python set is falsy, so both canonicalize to `None`.  This is a
structural collision of the canonical key, not a hash collision. -/
theorem cache_key_empty_set_counterexample :
    ({ required_indices := some ∅ } : SolverConstraints) ≠
      ({ required_indices := none } : SolverConstraints) ∧
    generateKey [1] 0 SolveMode.closest SolverStrategy.greedy
        (some { required_indices := some ∅ }) 100 5 =
      generateKey [1] 0 SolveMode.closest SolverStrategy.greedy
        (some { required_indices := none }) 100 5 := by
  refine ⟨by decide, by decide⟩

/-- C9, counterexample.  A failing sub-strategy result with error below the
`1e-10` epsilon does not short-circuit the hybrid loop: with
`values=[3,-3]`, `target=0`, Exact mode, `min_items=max_items=1`, the
dynamic sub-strategy fails with error `0 < 1e-10` (a failed result's error
is `|target|`), yet the greedy sub-strategy is still attempted and its
successful result is returned (the `break` sits inside the
`if result.success:` branch, fuzzy_sum.py lines 566-573). -/
theorem hybrid_no_short_circuit_on_failure :
    (runSub 100 [3, -3] 0 SolveMode.exact
        (some { min_items := some 1, max_items := some 1 })
        SolverStrategy.dynamic).success = false ∧
    (runSub 100 [3, -3] 0 SolveMode.exact
        (some { min_items := some 1, max_items := some 1 })
        SolverStrategy.dynamic).error < hybridEps ∧
    (solveGreedy [3, -3] 0 SolveMode.exact
        (some { min_items := some 1, max_items := some 1 })).success =
      true ∧
    solveHybrid 100 [3, -3] 0 SolveMode.exact
        (some { min_items := some 1, max_items := some 1 }) =
      { solveGreedy [3, -3] 0 SolveMode.exact
          (some { min_items := some 1, max_items := some 1 }) with
        strategy_used := SolverStrategy.hybrid } := by
  refine ⟨by decide, by decide, by decide, by decide⟩

/-- C8, amended.  The cache key is permutation-invariant in the value
domain; conversely, equal keys force the value lists to be permutations of
one another and the target, mode, strategy, scale factor, time limit, and
canonicalized constraints to be equal.  (The canonicalization identifies an
empty index set with an absent one, so a change of constraints inside one
canonicalization class does not change the key.) -/
theorem cache_key_canonical_amended :
    (∀ (v1 v2 : List ℚ) (target : ℚ) (mode : SolveMode)
        (strategy : SolverStrategy) (co : Option SolverConstraints) (sf : ℤ)
        (tl : ℚ),
      v1.Perm v2 →
      generateKey v1 target mode strategy co sf tl =
        generateKey v2 target mode strategy co sf tl) ∧
    (∀ (v1 v2 : List ℚ) (t1 t2 : ℚ) (m1 m2 : SolveMode)
        (s1 s2 : SolverStrategy) (c1 c2 : Option SolverConstraints)
        (f1 f2 : ℤ) (l1 l2 : ℚ),
      generateKey v1 t1 m1 s1 c1 f1 l1 = generateKey v2 t2 m2 s2 c2 f2 l2 →
      v1.Perm v2 ∧ t1 = t2 ∧ m1 = m2 ∧ s1 = s2 ∧ f1 = f2 ∧ l1 = l2 ∧
        c1.map constraintsKey = c2.map constraintsKey) := by
  constructor
  · intro v1 v2 target mode strategy co sf tl hperm
    have hsort : List.insertionSort (· ≤ ·) v1 =
        List.insertionSort (· ≤ ·) v2 :=
      List.eq_of_perm_of_sorted
        ((List.perm_insertionSort _ v1).trans
          (hperm.trans (List.perm_insertionSort _ v2).symm))
        (List.sorted_insertionSort _ v1) (List.sorted_insertionSort _ v2)
    rw [generateKey, generateKey, hsort]
  · intro v1 v2 t1 t2 m1 m2 s1 s2 c1 c2 f1 f2 l1 l2 h
    rw [generateKey, generateKey, CacheKey.mk.injEq] at h
    obtain ⟨h1, h2, h3, h4, h5, h6, h7⟩ := h
    refine ⟨?_, h2, h3, h4, h5, h6, h7⟩
    have p2 : List.Perm (List.insertionSort (· ≤ ·) v1) v2 := by
      rw [h1]
      exact List.perm_insertionSort _ v2
    exact (List.perm_insertionSort _ v1).symm.trans p2

/-- Witness for `cache_key_canonical_amended`: the two orderings of the
multiset `{1, 2}` produce the same key, and from that key equality the
parameters are recovered. -/
theorem cache_key_canonical_amended_witness :
    (generateKey [1, 2] 7 SolveMode.closest SolverStrategy.greedy none 100
        5 =
      generateKey [2, 1] 7 SolveMode.closest SolverStrategy.greedy none 100
        5) ∧
    (List.Perm [(1 : ℚ), 2] [2, 1] ∧ (7 : ℚ) = 7 ∧
      SolveMode.closest = SolveMode.closest ∧
      SolverStrategy.greedy = SolverStrategy.greedy ∧ (100 : ℤ) = 100 ∧
      (5 : ℚ) = 5 ∧
      (none : Option SolverConstraints).map constraintsKey =
        (none : Option SolverConstraints).map constraintsKey) :=
  ⟨cache_key_canonical_amended.1 [1, 2] [2, 1] 7 SolveMode.closest
      SolverStrategy.greedy none 100 5 (by decide),
   cache_key_canonical_amended.2 [1, 2] [2, 1] 7 7 SolveMode.closest
      SolveMode.closest SolverStrategy.greedy SolverStrategy.greedy none none
      100 100 5 5
      (cache_key_canonical_amended.1 [1, 2] [2, 1] 7 SolveMode.closest
        SolverStrategy.greedy none 100 5 (by decide))⟩

/-- C9, amended.  The hybrid strategy is unsuccessful iff every attempted
sub-strategy fails, in which case its status is `ALL_STRATEGIES_FAILED`; on
success the result is some successful sub-strategy's result with
`strategy_used` rewritten to `hybrid` (so `solver_status` is retained); and
a SUCCESSFUL dynamic-programming sub-result with error below the epsilon
short-circuits the loop, the result being exactly that sub-result marked
`hybrid`. -/
theorem hybrid_aggregation_amended (sf : ℤ) (values : List ℚ) (target : ℚ)
    (mode : SolveMode) (co : Option SolverConstraints) :
    ((solveHybrid sf values target mode co).success = false ↔
      ∀ s ∈ hybridStrategies values.length,
        (runSub sf values target mode co s).success = false) ∧
    ((solveHybrid sf values target mode co).success = false →
      (solveHybrid sf values target mode co).solver_status =
        "ALL_STRATEGIES_FAILED" ∧
      (solveHybrid sf values target mode co).strategy_used =
        SolverStrategy.hybrid) ∧
    ((solveHybrid sf values target mode co).success = true →
      (solveHybrid sf values target mode co).strategy_used =
        SolverStrategy.hybrid ∧
      ∃ s ∈ hybridStrategies values.length,
        (runSub sf values target mode co s).success = true ∧
        solveHybrid sf values target mode co =
          { runSub sf values target mode co s with
            strategy_used := SolverStrategy.hybrid }) ∧
    (values.length ≤ 500 →
      (runSub sf values target mode co SolverStrategy.dynamic).success =
        true →
      (runSub sf values target mode co SolverStrategy.dynamic).error <
        hybridEps →
      solveHybrid sf values target mode co =
        { runSub sf values target mode co SolverStrategy.dynamic with
          strategy_used := SolverStrategy.hybrid }) := by
  cases hhl : hybridLoop sf values target mode co
      (hybridStrategies values.length) none with
  | none =>
    have hall :=
      ((hybridLoop_eq_none_iff sf values target mode co _ _).1 hhl).2
    have hR : solveHybrid sf values target mode co =
        { success := false
          selected_indices := []
          selected_values := []
          total_sum := 0
          target := target
          error := |target|
          solve_time := 0
          strategy_used := SolverStrategy.hybrid
          mode_used := mode
          solver_status := "ALL_STRATEGIES_FAILED"
          message := "All strategies failed to find a solution" } := by
      unfold solveHybrid
      rw [hhl]
    rw [hR]
    refine ⟨iff_of_true rfl hall, fun _ => ⟨rfl, rfl⟩, fun h => absurd h
      (by simp), fun h500 hdsucc _ => ?_⟩
    have hdyn : SolverStrategy.dynamic ∈ hybridStrategies values.length := by
      unfold hybridStrategies
      rw [if_pos h500]
      simp
    exact absurd hdsucc (by simp [hall _ hdyn])
  | some b =>
    have hR : solveHybrid sf values target mode co = b := by
      unfold solveHybrid
      rw [hhl]
    rw [hR]
    rcases hybridLoop_some_shape sf values target mode co _ _ _ hhl with
      h0 | ⟨s, hs, hsucc, hb⟩
    · exact Option.noConfusion h0
    · have hbsucc : b.success = true := by
        rw [hb]
        exact hsucc
      refine ⟨iff_of_false (by simp [hbsucc]) ?_, fun h => absurd h
        (by simp [hbsucc]), fun _ => ⟨by rw [hb], s, hs, hsucc, hb⟩,
        fun h500 hdsucc herr => ?_⟩
      · intro hall
        exact absurd hsucc (by simp [hall s hs])
      · have hstr : hybridStrategies values.length =
            [SolverStrategy.dynamic, SolverStrategy.greedy] := by
          unfold hybridStrategies
          rw [if_pos h500]
          rfl
        rw [hstr, hybridLoop, if_pos hdsucc, if_pos herr] at hhl
        have hhl2 : some { runSub sf values target mode co
            SolverStrategy.dynamic with
            strategy_used := SolverStrategy.hybrid } = some b := hhl
        injection hhl2 with h2
        exact h2.symm

/-- Witness for `hybrid_aggregation_amended` at `values=[1]`, `target=1`,
Exact mode: the dynamic sub-strategy succeeds with error `0`, so the hybrid
result is that sub-result marked `hybrid`. -/
theorem hybrid_aggregation_amended_witness :
    (solveHybrid 100 [1] 1 SolveMode.exact none).strategy_used =
        SolverStrategy.hybrid ∧
      solveHybrid 100 [1] 1 SolveMode.exact none =
        { runSub 100 [1] 1 SolveMode.exact none SolverStrategy.dynamic with
          strategy_used := SolverStrategy.hybrid } :=
  ⟨((hybrid_aggregation_amended 100 [1] 1 SolveMode.exact none).2.2.1
      (by decide)).1,
   (hybrid_aggregation_amended 100 [1] 1 SolveMode.exact none).2.2.2
      (by decide) (by decide) (by decide)⟩

/-- C5.  For every Result returned by the top-level solve (after the
dispatcher's index remap): success implies the selected index and value
lists have equal length, the values are parallel to the indices over the
original domain (each selected value is the original-domain value at the
corresponding selected index, all indices in range), and the sum of the
selected values equals `total_sum` (exactly, in the exact-rational model);
failure implies both selection lists are empty. -/
theorem solve_result_invariants (sf : ℤ) (values : List ℚ) (target : ℚ)
    (mode : SolveMode) (strategy : SolverStrategy)
    (co : Option SolverConstraints) :
    ((solve sf values target mode strategy co).success = true →
      (solve sf values target mode strategy co).selected_indices.length =
        (solve sf values target mode strategy co).selected_values.length ∧
      (solve sf values target mode strategy co).selected_values =
        (solve sf values target mode strategy co).selected_indices.map
          (fun j => values.getD j 0) ∧
      (∀ j ∈ (solve sf values target mode strategy co).selected_indices,
        j < values.length) ∧
      (solve sf values target mode strategy co).selected_values.sum =
        (solve sf values target mode strategy co).total_sum) ∧
    ((solve sf values target mode strategy co).success = false →
      (solve sf values target mode strategy co).selected_indices = [] ∧
      (solve sf values target mode strategy co).selected_values = []) := by
  unfold solve
  by_cases hv : values = []
  · rw [if_pos hv]
    exact ⟨fun h => absurd h (by simp), fun _ => ⟨rfl, rfl⟩⟩
  rw [if_neg hv]
  by_cases hfv : (filterValues co values 0).1 = []
  · rw [if_pos hfv]
    exact ⟨fun h => absurd h (by simp), fun _ => ⟨rfl, rfl⟩⟩
  rw [if_neg hfv]
  refine remapResult_resultFields values co _ ?_
  cases strategy with
  | ortools => exact solveDynamic_resultFields sf _ target mode co
  | dynamic => exact solveDynamic_resultFields sf _ target mode co
  | greedy => exact solveGreedy_resultFields _ target mode co
  | hybrid => exact solveHybrid_resultFields sf _ target mode co

/-- Witness for `solve_result_invariants`: the successful greedy solve of
`values=[1,2]`, `target=3`. -/
theorem solve_result_invariants_witness :
    (solve 100 [1, 2] 3 SolveMode.closest SolverStrategy.greedy
        none).selected_indices.length =
      (solve 100 [1, 2] 3 SolveMode.closest SolverStrategy.greedy
        none).selected_values.length ∧
    (solve 100 [1, 2] 3 SolveMode.closest SolverStrategy.greedy
        none).selected_values =
      (solve 100 [1, 2] 3 SolveMode.closest SolverStrategy.greedy
        none).selected_indices.map (fun j => List.getD [1, 2] j 0) ∧
    (∀ j ∈ (solve 100 [1, 2] 3 SolveMode.closest SolverStrategy.greedy
        none).selected_indices, j < List.length [(1 : ℚ), 2]) ∧
    (solve 100 [1, 2] 3 SolveMode.closest SolverStrategy.greedy
        none).selected_values.sum =
      (solve 100 [1, 2] 3 SolveMode.closest SolverStrategy.greedy
        none).total_sum :=
  (solve_result_invariants 100 [1, 2] 3 SolveMode.closest
    SolverStrategy.greedy none).1 (by decide)

/-- C6.  For every batch of N submitted tasks, the returned list has
exactly N entries and is sorted in ascending order of `task_id`, for
every completion order (an arbitrary permutation of the tasks chosen by
the scheduler) and every per-task execution outcome, in both the
thread-pool and the process-pool mode. -/
theorem batch_ordering (exec : BatchTask → Except String BatchResult)
    (tasks order : List BatchTask) (hperm : order.Perm tasks) :
    ((solveWithThreads exec order).length = tasks.length ∧
      List.Sorted batchLe (solveWithThreads exec order)) ∧
    ((solveWithProcesses exec order).length = tasks.length ∧
      List.Sorted batchLe (solveWithProcesses exec order)) := by
  have hlen :
      (List.insertionSort batchLe (order.map (collectOne exec))).length =
        tasks.length := by
    rw [List.length_insertionSort, List.length_map, hperm.length_eq]
  exact ⟨⟨hlen, List.sorted_insertionSort _ _⟩,
    ⟨hlen, List.sorted_insertionSort _ _⟩⟩

/-- Witness for `batch_ordering`: two tasks completing in reverse
submission order, every execution raising. -/
theorem batch_ordering_witness :
    ((solveWithThreads (fun _ => Except.error "boom")
          [batchTaskB, batchTaskA]).length =
        [batchTaskA, batchTaskB].length ∧
      List.Sorted batchLe
        (solveWithThreads (fun _ => Except.error "boom")
          [batchTaskB, batchTaskA])) ∧
    ((solveWithProcesses (fun _ => Except.error "boom")
          [batchTaskB, batchTaskA]).length =
        [batchTaskA, batchTaskB].length ∧
      List.Sorted batchLe
        (solveWithProcesses (fun _ => Except.error "boom")
          [batchTaskB, batchTaskA])) :=
  batch_ordering (fun _ => Except.error "boom") [batchTaskA, batchTaskB]
    [batchTaskB, batchTaskA] (by decide)

/-- C7.  A task whose execution raises does not abort the batch: its entry
in the returned list is the synthesized `TASK_FAILED` `BatchResult`
carrying the captured error text, the batch still returns one entry per
collected task (the output is a permutation of the per-task collection),
and the entries of all other tasks are unaffected (they do not depend on
the failing task's outcome).  The process-pool mode has the same
collection shape. -/
theorem batch_failure_isolation (exec : BatchTask → Except String BatchResult)
    (order : List BatchTask) (t : BatchTask) (e : String)
    (hexec : exec t = Except.error e) (ht : t ∈ order) :
    List.Perm (solveWithThreads exec order) (order.map (collectOne exec)) ∧
    collectOne exec t = taskFailedBatchResult t e ∧
    (taskFailedBatchResult t e).result.success = false ∧
    (taskFailedBatchResult t e).result.solver_status = "TASK_FAILED" ∧
    (taskFailedBatchResult t e).result.message = e ∧
    taskFailedBatchResult t e ∈ solveWithThreads exec order ∧
    (solveWithThreads exec order).length = order.length ∧
    solveWithProcesses exec order = solveWithThreads exec order ∧
    (∀ exec2 : BatchTask → Except String BatchResult,
      (∀ u, u ≠ t → exec2 u = exec u) →
      (order.filter (fun u => decide (u ≠ t))).map (collectOne exec2) =
        (order.filter (fun u => decide (u ≠ t))).map (collectOne exec)) := by
  have hcoll : collectOne exec t = taskFailedBatchResult t e := by
    unfold collectOne
    rw [hexec]
  have hperm : List.Perm (solveWithThreads exec order)
      (order.map (collectOne exec)) := List.perm_insertionSort _ _
  refine ⟨hperm, hcoll, rfl, rfl, rfl, ?_, ?_, rfl, ?_⟩
  · exact hperm.mem_iff.mpr (hcoll ▸ List.mem_map_of_mem (collectOne exec) ht)
  · rw [hperm.length_eq, List.length_map]
  · intro exec2 hagree
    refine List.map_congr_left (fun u hu => ?_)
    obtain ⟨humem, hune⟩ := List.mem_filter.1 hu
    have hune2 : u ≠ t := of_decide_eq_true hune
    unfold collectOne
    rw [hagree u hune2]

/-- Witness for `batch_failure_isolation`: a two-task batch whose first
task raises `"boom"`. -/
theorem batch_failure_isolation_witness :
    List.Perm
        (solveWithThreads (fun _ => Except.error "boom")
          [batchTaskA, batchTaskB])
        ([batchTaskA, batchTaskB].map
          (collectOne (fun _ => Except.error "boom"))) ∧
      collectOne (fun _ => Except.error "boom") batchTaskA =
        taskFailedBatchResult batchTaskA "boom" ∧
      (taskFailedBatchResult batchTaskA "boom").result.success = false ∧
      (taskFailedBatchResult batchTaskA "boom").result.solver_status =
        "TASK_FAILED" ∧
      (taskFailedBatchResult batchTaskA "boom").result.message = "boom" ∧
      taskFailedBatchResult batchTaskA "boom" ∈
        solveWithThreads (fun _ => Except.error "boom")
          [batchTaskA, batchTaskB] ∧
      (solveWithThreads (fun _ => Except.error "boom")
          [batchTaskA, batchTaskB]).length =
        [batchTaskA, batchTaskB].length ∧
      solveWithProcesses (fun _ => Except.error "boom")
          [batchTaskA, batchTaskB] =
        solveWithThreads (fun _ => Except.error "boom")
          [batchTaskA, batchTaskB] ∧
      (∀ exec2 : BatchTask → Except String BatchResult,
        (∀ u, u ≠ batchTaskA → exec2 u = (fun _ => Except.error "boom") u) →
        ([batchTaskA, batchTaskB].filter
            (fun u => decide (u ≠ batchTaskA))).map (collectOne exec2) =
          ([batchTaskA, batchTaskB].filter
            (fun u => decide (u ≠ batchTaskA))).map
            (collectOne (fun _ => Except.error "boom"))) :=
  batch_failure_isolation (fun _ => Except.error "boom")
    [batchTaskA, batchTaskB] batchTaskA "boom" rfl (by decide)

/-- C10.  A `min_items` or `max_items` of `0` behaves exactly like an absent
constraint in both the dynamic-programming and the greedy solver: every
count-constraint check in the source is gated on Python truthiness
(`constraints.min_items and ...` / `constraints.max_items and ...`,
fuzzy_sum.py lines 372-374, 392-396, 477-479, 504-506), and `0` is falsy,
so the zero bound is never enforced and the produced `SolverResult` is
identical field by field. -/
theorem zero_count_constraints_ignored (sf : ℤ) (values : List ℚ)
    (target : ℚ) (mode : SolveMode) (c : SolverConstraints) :
    (solveDynamic sf values target mode (some { c with min_items := some 0 }) =
      solveDynamic sf values target mode (some { c with min_items := none })) ∧
    (solveDynamic sf values target mode (some { c with max_items := some 0 }) =
      solveDynamic sf values target mode (some { c with max_items := none })) ∧
    (solveGreedy values target mode (some { c with min_items := some 0 }) =
      solveGreedy values target mode (some { c with min_items := none })) ∧
    (solveGreedy values target mode (some { c with max_items := some 0 }) =
      solveGreedy values target mode (some { c with max_items := none })) := by
  refine ⟨?_, ?_, ?_, ?_⟩
  · exact solveDynamic_guards_congr sf values target mode _ _ rfl
      (selMinSkip_zero c) rfl
  · exact solveDynamic_guards_congr sf values target mode _ _
      (dynMaxBlocks_zero c) rfl (selMaxSkip_zero c)
  · exact solveGreedy_guards_congr values target mode _ _ rfl rfl
      (greedyMinFail_zero c)
  · exact solveGreedy_guards_congr values target mode _ _
      (greedyMaxBreak_zero c) rfl rfl

end FuzzySum
